import Mathlib

set_option maxHeartbeats 1000000

/-! Shallow embedding of `crates/ide/src/diagnostics/field_shorthand.rs`:
the field-shorthand diagnostic, which suggests shortening `Foo { field: field }`
to `Foo { field }` in both record expressions and record patterns, together
with a model of the external text-edit and diagnostic value types it consumes. -/

/-- A contiguous text range: start and stop offsets into the source buffer
(model of the external `TextRange` value). -/
structure TextRange where
  start : Nat
  stop : Nat
deriving DecidableEq

/-- Modelled from the spec: a field designator (`NameRef`) as consumed here:
its verbatim source text, and the result of `as_tuple_field()`, which is `some`
precisely when the designator is a numeric positional (tuple-index) designator
rather than a name. The accessor lives outside this module; only the text and
`as_tuple_field().is_some()` are read by the detector. -/
structure NameRef where
  text : String
  as_tuple_field : Option Nat
deriving DecidableEq

/-- A value expression node; the detector reads only its verbatim source text
(`expr.syntax().text().to_string()`). -/
structure Expr where
  text : String
deriving DecidableEq

/-- A sub-pattern node; the detector reads only its verbatim source text
(`pat.syntax().text().to_string()`). -/
structure Pat where
  text : String
deriving DecidableEq

/-- One field entry of a record expression: optional designator, optional value
expression (either may be absent when the tree was built under parser error
recovery), and the whole entry's text range
(`record_field.syntax().text_range()`). -/
structure RecordExprField where
  name_ref : Option NameRef
  expr : Option Expr
  range : TextRange
deriving DecidableEq

/-- A record expression (`ast::RecordExpr`); `record_expr_field_list` is `none`
for a unit-like literal without braces. -/
structure RecordExpr where
  record_expr_field_list : Option (List RecordExprField)
deriving DecidableEq

/-- One field entry of a record pattern: optional designator, optional
sub-pattern, and the whole entry's text range. -/
structure RecordPatField where
  name_ref : Option NameRef
  pat : Option Pat
  range : TextRange
deriving DecidableEq

/-- A record pattern (`ast::RecordPat`); `record_pat_field_list` is `none` for
a unit-like pattern without braces. -/
structure RecordPat where
  record_pat_field_list : Option (List RecordPatField)
deriving DecidableEq

/-- A syntax node as seen by the dispatcher `check`: a record expression, a
record pattern, or a node of any other kind. -/
inductive SyntaxNode where
  | recordExpr (it : RecordExpr)
  | recordPat (it : RecordPat)
  | other
deriving DecidableEq

/-- Opaque file identity, passed through unchanged into constructed fixes. -/
abbrev FileId := Nat

/-- Modelled from the spec: one atomic text operation of the external
text-edit type, replacing the characters in `range` (offsets into the
unmodified document) by `insert`; a delete-range has empty `insert`, an
insert-at-offset has an empty `range`. -/
structure Indel where
  range : TextRange
  insert : String
deriving DecidableEq

/-- Modelled from the spec: the composed edit object, holding the ordered
sequence of atomic operations recorded by the builder. -/
structure TextEdit where
  indels : List Indel
deriving DecidableEq

/-- The builder state: the operations recorded so far, in recording order. -/
abbrev TextEditBuilder := List Indel

/-- Fresh builder (`TextEdit::builder()`). -/
def TextEdit.builder : TextEditBuilder := []

/-- Record a delete-range operation (`edit_builder.delete(range)`). -/
def TextEditBuilder.delete (b : TextEditBuilder) (range : TextRange) :
    TextEditBuilder :=
  b ++ [{ range := range, insert := "" }]

/-- Record an insert-at-offset operation
(`edit_builder.insert(offset, text)`). -/
def TextEditBuilder.insert (b : TextEditBuilder) (offset : Nat) (text : String) :
    TextEditBuilder :=
  b ++ [{ range := { start := offset, stop := offset }, insert := text }]

/-- Modelled from the spec: finishing the builder packages the recorded
operations, in recording order, into a single edit object. -/
def TextEditBuilder.finish (b : TextEditBuilder) : TextEdit :=
  { indels := b }

/-- Ordering of atomic operations by position in the unmodified document; an
insertion at an offset comes before a deletion starting at that offset. -/
def Indel.keyLe (a b : Indel) : Bool :=
  decide (a.range.start < b.range.start ∨
    (a.range.start = b.range.start ∧ a.range.stop ≤ b.range.stop))

/-- Insert one operation into a position-sorted list of operations. -/
def insertSorted (i : Indel) : List Indel → List Indel
  | [] => [i]
  | j :: rest => if i.keyLe j then i :: j :: rest else j :: insertSorted i rest

/-- Sort operations by position in the unmodified document. -/
def sortIndels : List Indel → List Indel
  | [] => []
  | i :: rest => insertSorted i (sortIndels rest)

/-- Splice position-sorted operations into the document: keep the text up to
each operation's start, emit its insertion, resume after its range. -/
def spliceAux (src : List Char) (pos : Nat) : List Indel → List Char
  | [] => src.drop pos
  | i :: rest =>
      (src.drop pos).take (i.range.start - pos) ++ i.insert.toList
        ++ spliceAux src i.range.stop rest

/-- Modelled from the spec: the external text-edit application engine; every
operation's offsets refer to the unmodified document. -/
def TextEdit.apply (e : TextEdit) (src : List Char) : List Char :=
  spliceAux src 0 (sortIndels e.indels)

/-- Diagnostic severity; this module only ever constructs `hint`. -/
inductive Severity where
  | hint
  | error
deriving DecidableEq

/-- Modelled from the spec: an edit to one file — the opaque file identity plus
the composed text edit (`SourceFileEdit { file_id, edit }`). -/
structure SourceFileEdit where
  file_id : FileId
  edit : TextEdit
deriving DecidableEq

/-- Modelled from the spec: a fix is a human-readable label, a source change,
and a target range equal to the diagnostic's range (`Fix::new`). -/
structure DiagnosticFix where
  label : String
  source_change : SourceFileEdit
  fix_trigger_range : TextRange
deriving DecidableEq

/-- Constructor mirroring `Fix::new(label, source_change, fix_trigger_range)`. -/
def DiagnosticFix.new (label : String) (source_change : SourceFileEdit)
    (fix_trigger_range : TextRange) : DiagnosticFix :=
  { label := label, source_change := source_change,
    fix_trigger_range := fix_trigger_range }

/-- Modelled from the spec: a diagnostic carries a text range, a message, a
severity, and an optional attached fix. -/
structure Diagnostic where
  range : TextRange
  message : String
  severity : Severity
  fix : Option DiagnosticFix
deriving DecidableEq

/-- Constructor mirroring `Diagnostic::hint(range, message)`: hint severity,
no fix attached yet. -/
def Diagnostic.hint (range : TextRange) (message : String) : Diagnostic :=
  { range := range, message := message, severity := Severity.hint, fix := none }

/-- Mirror of `Diagnostic::with_fix(fix)`. -/
def Diagnostic.with_fix (d : Diagnostic) (fix : Option DiagnosticFix) : Diagnostic :=
  { d with fix := fix }

/-- The body of the `for record_field in record_field_list.fields()` loop of
`check_expr_field_shorthand` (field_shorthand.rs lines 30-58): the diagnostic
pushed for one field entry, if any. Skips the entry when designator or value
is missing, when the two texts differ, or when the designator is a numeric
tuple-index designator. -/
def expr_field_check (file_id : FileId) (record_field : RecordExprField) :
    Option Diagnostic :=
  match record_field.name_ref, record_field.expr with
  | some name_ref, some expr =>
      let field_name := name_ref.text
      let field_expr := expr.text
      let field_name_is_tup_index := name_ref.as_tuple_field.isSome
      if field_name ≠ field_expr ∨ field_name_is_tup_index = true then none
      else
        let edit_builder := TextEdit.builder
        let edit_builder := edit_builder.delete record_field.range
        let edit_builder := edit_builder.insert record_field.range.start field_name
        let edit := edit_builder.finish
        let field_range := record_field.range
        some ((Diagnostic.hint field_range "Shorthand struct initialization").with_fix
          (some (DiagnosticFix.new "Use struct shorthand initialization"
            { file_id := file_id, edit := edit } field_range)))
  | _, _ => none

/-- Mirror of `check_expr_field_shorthand` (field_shorthand.rs lines 21-59):
return unchanged when there is no field list, otherwise scan the field list in
source order, appending a diagnostic for every redundant `name: name` entry. -/
def check_expr_field_shorthand (acc : List Diagnostic) (file_id : FileId)
    (record_expr : RecordExpr) : List Diagnostic :=
  match record_expr.record_expr_field_list with
  | none => acc
  | some record_field_list =>
      record_field_list.foldl (fun acc record_field =>
        match expr_field_check file_id record_field with
        | some d => acc ++ [d]
        | none => acc) acc

/-- The body of the `for record_pat_field in record_pat_field_list.fields()`
loop of `check_pat_field_shorthand` (field_shorthand.rs lines 70-96): the
diagnostic pushed for one field entry, if any. -/
def pat_field_check (file_id : FileId) (record_pat_field : RecordPatField) :
    Option Diagnostic :=
  match record_pat_field.name_ref, record_pat_field.pat with
  | some name_ref, some pat =>
      let field_name := name_ref.text
      let field_pat := pat.text
      let field_name_is_tup_index := name_ref.as_tuple_field.isSome
      if field_name ≠ field_pat ∨ field_name_is_tup_index = true then none
      else
        let edit_builder := TextEdit.builder
        let edit_builder := edit_builder.delete record_pat_field.range
        let edit_builder := edit_builder.insert record_pat_field.range.start field_name
        let edit := edit_builder.finish
        let field_range := record_pat_field.range
        some ((Diagnostic.hint field_range "Shorthand struct pattern").with_fix
          (some (DiagnosticFix.new "Use struct field shorthand"
            { file_id := file_id, edit := edit } field_range)))
  | _, _ => none

/-- Mirror of `check_pat_field_shorthand` (field_shorthand.rs lines 61-97). -/
def check_pat_field_shorthand (acc : List Diagnostic) (file_id : FileId)
    (record_pat : RecordPat) : List Diagnostic :=
  match record_pat.record_pat_field_list with
  | none => acc
  | some record_pat_field_list =>
      record_pat_field_list.foldl (fun acc record_pat_field =>
        match pat_field_check file_id record_pat_field with
        | some d => acc ++ [d]
        | none => acc) acc

/-- Mirror of the dispatcher `check` (field_shorthand.rs lines 11-19): match
on the node's kind and delegate, doing nothing for any other kind. -/
def check (acc : List Diagnostic) (file_id : FileId) (node : SyntaxNode) :
    List Diagnostic :=
  match node with
  | SyntaxNode.recordExpr it => check_expr_field_shorthand acc file_id it
  | SyntaxNode.recordPat it => check_pat_field_shorthand acc file_id it
  | SyntaxNode.other => acc

/-- Modelled from the spec: the record expression obtained by re-parsing the
construct after the fix has been applied — the edited field entry is a
single-token shorthand field, whose payload is the bare name and which has no
designator of its own. -/
def shorthandRecordExpr (text : String) (r : TextRange) : RecordExpr :=
  { record_expr_field_list := some [{ name_ref := none, expr := some { text := text }, range := r }] }

/-- Modelled from the spec: the record pattern obtained by re-parsing the
construct after the fix has been applied, analogous to `shorthandRecordExpr`. -/
def shorthandRecordPat (text : String) (r : TextRange) : RecordPat :=
  { record_pat_field_list := some [{ name_ref := none, pat := some { text := text }, range := r }] }

/-- Transport of a record-pattern field entry to a record-expression field
entry with the same designator, the same payload text and the same range;
used to state that the two detectors share identical logic. -/
def RecordPatField.toExprField (f : RecordPatField) : RecordExprField :=
  { name_ref := f.name_ref,
    expr := f.pat.map (fun p => { text := p.text }),
    range := f.range }

/-- Transport of a whole record pattern to a record expression, fieldwise. -/
def RecordPat.toRecordExpr (rp : RecordPat) : RecordExpr :=
  { record_expr_field_list :=
      rp.record_pat_field_list.map (fun l => l.map RecordPatField.toExprField) }

/-- Erase the fix label, keeping everything else of a fix. -/
def DiagnosticFix.eraseLabel (fx : DiagnosticFix) : DiagnosticFix :=
  { fx with label := "" }

/-- Erase the message and the fix label of a diagnostic, keeping severity,
range and the fix's edit and target range. -/
def Diagnostic.eraseText (d : Diagnostic) : Diagnostic :=
  { d with message := "", fix := d.fix.map DiagnosticFix.eraseLabel }

/-- Number of field entries in the node's field list (zero for a node without
a field list and for a node of an unrecognized kind). -/
def SyntaxNode.numFields : SyntaxNode → Nat
  | SyntaxNode.recordExpr it =>
      (it.record_expr_field_list.map List.length).getD 0
  | SyntaxNode.recordPat it =>
      (it.record_pat_field_list.map List.length).getD 0
  | SyntaxNode.other => 0

/-! Helper lemmas about the embedded definitions. -/

/-- Folding the push-if-diagnosed loop body over a field list appends exactly
the diagnostics of the flagged entries, in source order. -/
theorem foldl_push_filterMap {α : Type} (g : α → Option Diagnostic)
    (acc : List Diagnostic) (l : List α) :
    l.foldl (fun a x =>
        match g x with
        | some d => a ++ [d]
        | none => a) acc
      = acc ++ l.filterMap g := by
  induction l generalizing acc with
  | nil => simp
  | cons x xs ih =>
      cases hx : g x with
      | none => simp [hx, ih, List.filterMap_cons]
      | some d => simp [hx, ih, List.filterMap_cons]

/-- Closed form of the record-expression detector on a construct that has a
field list. -/
theorem check_expr_eq_filterMap (acc : List Diagnostic) (file_id : FileId)
    (fields : List RecordExprField) :
    check_expr_field_shorthand acc file_id ⟨some fields⟩
      = acc ++ fields.filterMap (expr_field_check file_id) :=
  foldl_push_filterMap (expr_field_check file_id) acc fields

/-- Closed form of the record-pattern detector on a construct that has a
field list. -/
theorem check_pat_eq_filterMap (acc : List Diagnostic) (file_id : FileId)
    (fields : List RecordPatField) :
    check_pat_field_shorthand acc file_id ⟨some fields⟩
      = acc ++ fields.filterMap (pat_field_check file_id) :=
  foldl_push_filterMap (pat_field_check file_id) acc fields

/-- Unfolding of the per-entry check on a well-formed record-expression entry:
it is exactly the redundancy test guarding the concrete diagnostic. -/
theorem expr_field_check_unfold (file_id : FileId) (n : NameRef) (e : Expr)
    (r : TextRange) :
    expr_field_check file_id ⟨some n, some e, r⟩
      = if n.text ≠ e.text ∨ n.as_tuple_field.isSome = true then none
        else some ⟨r, "Shorthand struct initialization", Severity.hint,
          some ⟨"Use struct shorthand initialization",
            ⟨file_id, ⟨[⟨r, ""⟩, ⟨⟨r.start, r.start⟩, n.text⟩]⟩⟩, r⟩⟩ := rfl

/-- Unfolding of the per-entry check on a well-formed record-pattern entry. -/
theorem pat_field_check_unfold (file_id : FileId) (n : NameRef) (p : Pat)
    (r : TextRange) :
    pat_field_check file_id ⟨some n, some p, r⟩
      = if n.text ≠ p.text ∨ n.as_tuple_field.isSome = true then none
        else some ⟨r, "Shorthand struct pattern", Severity.hint,
          some ⟨"Use struct field shorthand",
            ⟨file_id, ⟨[⟨r, ""⟩, ⟨⟨r.start, r.start⟩, n.text⟩]⟩⟩, r⟩⟩ := rfl

/-- Inversion: if the per-entry check on a record-expression entry fires, the
texts were equal, the designator was a name, and the diagnostic is the
concrete one built by the detector. -/
theorem expr_field_check_eq_some (file_id : FileId) (n : NameRef) (e : Expr)
    (r : TextRange) (d : Diagnostic)
    (hc : expr_field_check file_id ⟨some n, some e, r⟩ = some d) :
    n.text = e.text ∧ n.as_tuple_field.isSome = false ∧
      d = ⟨r, "Shorthand struct initialization", Severity.hint,
        some ⟨"Use struct shorthand initialization",
          ⟨file_id, ⟨[⟨r, ""⟩, ⟨⟨r.start, r.start⟩, n.text⟩]⟩⟩, r⟩⟩ := by
  rw [expr_field_check_unfold] at hc
  by_cases h : n.text ≠ e.text ∨ n.as_tuple_field.isSome = true
  · rw [if_pos h] at hc
    exact Option.noConfusion hc
  · rw [if_neg h] at hc
    push_neg at h
    exact ⟨h.1, Bool.eq_false_iff.mpr h.2, (Option.some.inj hc).symm⟩

/-- Inversion for the record-pattern per-entry check. -/
theorem pat_field_check_eq_some (file_id : FileId) (n : NameRef) (p : Pat)
    (r : TextRange) (d : Diagnostic)
    (hc : pat_field_check file_id ⟨some n, some p, r⟩ = some d) :
    n.text = p.text ∧ n.as_tuple_field.isSome = false ∧
      d = ⟨r, "Shorthand struct pattern", Severity.hint,
        some ⟨"Use struct field shorthand",
          ⟨file_id, ⟨[⟨r, ""⟩, ⟨⟨r.start, r.start⟩, n.text⟩]⟩⟩, r⟩⟩ := by
  rw [pat_field_check_unfold] at hc
  by_cases h : n.text ≠ p.text ∨ n.as_tuple_field.isSome = true
  · rw [if_pos h] at hc
    exact Option.noConfusion hc
  · rw [if_neg h] at hc
    push_neg at h
    exact ⟨h.1, Bool.eq_false_iff.mpr h.2, (Option.some.inj hc).symm⟩

/-- A record-expression entry with a missing designator is skipped. -/
theorem expr_field_check_no_name (file_id : FileId) (e : Option Expr)
    (r : TextRange) : expr_field_check file_id ⟨none, e, r⟩ = none := by
  cases e <;> rfl

/-- A record-expression entry with a missing value is skipped. -/
theorem expr_field_check_no_expr (file_id : FileId) (n : Option NameRef)
    (r : TextRange) : expr_field_check file_id ⟨n, none, r⟩ = none := by
  cases n <;> rfl

/-- A record-pattern entry with a missing designator is skipped. -/
theorem pat_field_check_no_name (file_id : FileId) (p : Option Pat)
    (r : TextRange) : pat_field_check file_id ⟨none, p, r⟩ = none := by
  cases p <;> rfl

/-- A record-pattern entry with a missing sub-pattern is skipped. -/
theorem pat_field_check_no_pat (file_id : FileId) (n : Option NameRef)
    (r : TextRange) : pat_field_check file_id ⟨n, none, r⟩ = none := by
  cases n <;> rfl

/-- Applying the delete-entry-then-insert-name edit built by the detector:
the text covered by the deleted range is replaced by the inserted text and
nothing else moves. -/
theorem apply_delete_insert (s t : Nat) (txt : String) (src : List Char)
    (hst : s ≤ t) :
    TextEdit.apply ⟨[⟨⟨s, t⟩, ""⟩, ⟨⟨s, s⟩, txt⟩]⟩ src
      = src.take s ++ txt.toList ++ src.drop t := by
  rcases Nat.lt_or_ge s t with h | h
  · have hk : Indel.keyLe ⟨⟨s, t⟩, ""⟩ ⟨⟨s, s⟩, txt⟩ = false := by
      simp only [Indel.keyLe, decide_eq_false_iff_not]
      push_neg
      omega
    simp [TextEdit.apply, sortIndels, insertSorted, hk, spliceAux,
      Nat.sub_self, Nat.sub_zero]
  · have ht : t = s := Nat.le_antisymm h hst
    subst ht
    have hk : Indel.keyLe ⟨⟨t, t⟩, ""⟩ ⟨⟨t, t⟩, txt⟩ = true := by
      simp only [Indel.keyLe, decide_eq_true_eq]
      exact Or.inr ⟨trivial, Nat.le_refl t⟩
    simp [TextEdit.apply, sortIndels, insertSorted, hk, spliceAux,
      Nat.sub_self, Nat.sub_zero]

/-- Re-running the record-expression detector on the re-parsed shorthand
construct appends nothing. -/
theorem check_expr_shorthand_eq (acc : List Diagnostic) (file_id : FileId)
    (txt : String) (r : TextRange) :
    check_expr_field_shorthand acc file_id (shorthandRecordExpr txt r) = acc := rfl

/-- Re-running the record-pattern detector on the re-parsed shorthand
construct appends nothing. -/
theorem check_pat_shorthand_eq (acc : List Diagnostic) (file_id : FileId)
    (txt : String) (r : TextRange) :
    check_pat_field_shorthand acc file_id (shorthandRecordPat txt r) = acc := rfl

/-- Positions in the image of `List.filterMap` respect source positions: if
entry `i` comes before entry `j` and both are kept, the first one's image
appears at an earlier position of the result. -/
theorem filterMap_get_order {α β : Type} (g : α → Option β) (l : List α)
    (i j : Nat) (hi : i < l.length) (hj : j < l.length) (hij : i < j)
    (a b : β) (ha : g (l.get ⟨i, hi⟩) = some a)
    (hb : g (l.get ⟨j, hj⟩) = some b) :
    ∃ p q, p < q ∧ (l.filterMap g).get? p = some a ∧
      (l.filterMap g).get? q = some b := by
  have hsplit : l.filterMap g
      = (l.take (i+1)).filterMap g ++ (l.drop (i+1)).filterMap g := by
    rw [← List.filterMap_append, List.take_append_drop]
  have hmema : a ∈ (l.take (i+1)).filterMap g := by
    apply List.mem_filterMap.mpr
    refine ⟨l.get ⟨i, hi⟩, ?_, ha⟩
    have h1 : (l.take (i+1)).get? i = l.get? i := List.get?_take (Nat.lt_succ_self i)
    exact List.get?_mem (h1.trans (List.get?_eq_get hi))
  obtain ⟨p, hp⟩ := List.get?_of_mem hmema
  have hplt : p < ((l.take (i+1)).filterMap g).length := by
    rcases List.get?_eq_some.mp hp with ⟨h, _⟩
    exact h
  have hmemb : b ∈ (l.drop (i+1)).filterMap g := by
    apply List.mem_filterMap.mpr
    refine ⟨l.get ⟨j, hj⟩, ?_, hb⟩
    have h1 : (l.drop (i+1)).get? (j - (i+1)) = l.get? ((i+1) + (j - (i+1))) :=
      List.get?_drop l (i+1) (j - (i+1))
    have h2 : (i+1) + (j - (i+1)) = j := by omega
    rw [h2] at h1
    exact List.get?_mem (h1.trans (List.get?_eq_get hj))
  obtain ⟨q0, hq0⟩ := List.get?_of_mem hmemb
  refine ⟨p, ((l.take (i+1)).filterMap g).length + q0, ?_, ?_, ?_⟩
  · exact Nat.lt_of_lt_of_le hplt (Nat.le_add_right _ _)
  · rw [hsplit, List.get?_append hplt]
    exact hp
  · rw [hsplit, List.get?_append_right (Nat.le_add_right _ _)]
    simpa using hq0

/-- The two per-entry checks agree, once the message and the fix label are
erased, on corresponding entries. -/
theorem field_check_agree (file_id : FileId) (f : RecordPatField) :
    (pat_field_check file_id f).map Diagnostic.eraseText
      = (expr_field_check file_id f.toExprField).map Diagnostic.eraseText := by
  rcases f with ⟨nr, p, r⟩
  cases nr with
  | none => cases p <;> rfl
  | some n =>
      cases p with
      | none => rfl
      | some pp =>
          show (pat_field_check file_id ⟨some n, some pp, r⟩).map Diagnostic.eraseText
            = (expr_field_check file_id ⟨some n, some ⟨pp.text⟩, r⟩).map Diagnostic.eraseText
          rw [pat_field_check_unfold, expr_field_check_unfold]
          by_cases h : n.text ≠ pp.text ∨ n.as_tuple_field.isSome = true
          · rw [if_pos h, if_pos h]
          · rw [if_neg h, if_neg h]
            rfl

/-! Concrete fixtures used by the witnesses and the counterexample below.
They model the source text `A { a: a, b: b }`: the entry `a: a` occupies
offsets 4 to 8 and the entry `b: b` occupies offsets 10 to 14. -/

/-- The field entry `a: a` at offsets 4 to 8. -/
def exFieldA : RecordExprField := ⟨some ⟨"a", none⟩, some ⟨"a"⟩, ⟨4, 8⟩⟩

/-- The field entry `b: b` at offsets 10 to 14. -/
def exFieldB : RecordExprField := ⟨some ⟨"b", none⟩, some ⟨"b"⟩, ⟨10, 14⟩⟩

/-- The edit built for `a: a`: delete offsets 4 to 8, insert `a` at 4. -/
def exEditA : TextEdit := ⟨[⟨⟨4, 8⟩, ""⟩, ⟨⟨4, 4⟩, "a"⟩]⟩

/-- The fix attached to the diagnostic for `a: a`. -/
def exFixA : DiagnosticFix :=
  ⟨"Use struct shorthand initialization", ⟨0, exEditA⟩, ⟨4, 8⟩⟩

/-- The diagnostic emitted for `a: a`. -/
def exDiagA : Diagnostic :=
  ⟨⟨4, 8⟩, "Shorthand struct initialization", Severity.hint, some exFixA⟩

/-- The edit built for `b: b`: delete offsets 10 to 14, insert `b` at 10. -/
def exEditB : TextEdit := ⟨[⟨⟨10, 14⟩, ""⟩, ⟨⟨10, 10⟩, "b"⟩]⟩

/-- The fix attached to the diagnostic for `b: b`. -/
def exFixB : DiagnosticFix :=
  ⟨"Use struct shorthand initialization", ⟨0, exEditB⟩, ⟨10, 14⟩⟩

/-- The diagnostic emitted for `b: b`. -/
def exDiagB : Diagnostic :=
  ⟨⟨10, 14⟩, "Shorthand struct initialization", Severity.hint, some exFixB⟩

/-- A malformed entry whose value is missing (error recovery). -/
def exBadField : RecordExprField := ⟨some ⟨"b", none⟩, none, ⟨10, 11⟩⟩

/-- The source text `A { a: a, b: b }` of the fixture construct. -/
def exSrcAB : List Char := "A \x7b a: a, b: b \x7d".toList

/-- The text obtained by applying the fix for `a: a` to `exSrcAB`. -/
def exEditedAB : List Char := "A \x7b a, b: b \x7d".toList

/-- Modelled from the spec: the construct obtained by re-parsing the edited
source `A { a, b: b }` — the first entry is now a shorthand field with no
designator, the second entry `b: b` is unchanged (its offsets shift left). -/
def exEditedConstructAB : RecordExpr :=
  ⟨some [⟨none, some ⟨"a"⟩, ⟨4, 5⟩⟩, ⟨some ⟨"b", none⟩, some ⟨"b"⟩, ⟨7, 11⟩⟩]⟩

/-- An if-then-else returning `none` in the positive branch is `some` exactly
when the condition fails. -/
theorem isSome_ite_none {c : Prop} [Decidable c] {β : Type} (x : β) :
    (if c then none else some x).isSome = true ↔ ¬c := by
  by_cases h : c <;> simp [h]

/-- Negation of the detector's skip condition, spelled as the redundancy
predicate. -/
theorem not_skip_cond_iff (a b : String) (o : Option Nat) :
    ¬(a ≠ b ∨ o.isSome = true) ↔ (a = b ∧ o.isSome = false) := by
  constructor
  · intro h
    push_neg at h
    exact ⟨h.1, Bool.eq_false_iff.mpr h.2⟩
  · rintro ⟨h1, h2⟩
    push_neg
    exact ⟨h1, by simp [h2]⟩

/-- Claim C1: a well-formed field entry (designator and value or sub-pattern
both present) is flagged iff the designator's text equals the payload's text
byte-for-byte and the designator is a name, not a numeric positional
tuple-index designator; in particular an entry like `0: 0`, whose designator
is positional, is never flagged even though the texts are equal. -/
theorem redundancy_iff_texts_equal_and_named (file_id : FileId)
    (n : NameRef) (e : Expr) (p : Pat) (r : TextRange) :
    ((expr_field_check file_id ⟨some n, some e, r⟩).isSome = true
        ↔ (n.text = e.text ∧ n.as_tuple_field.isSome = false))
    ∧ ((pat_field_check file_id ⟨some n, some p, r⟩).isSome = true
        ↔ (n.text = p.text ∧ n.as_tuple_field.isSome = false))
    ∧ (∀ k, expr_field_check file_id ⟨some ⟨"0", some k⟩, some ⟨"0"⟩, r⟩ = none)
    ∧ (∀ k, pat_field_check file_id ⟨some ⟨"0", some k⟩, some ⟨"0"⟩, r⟩ = none) := by
  refine ⟨?_, ?_, ?_, ?_⟩
  · rw [expr_field_check_unfold, isSome_ite_none]
    exact not_skip_cond_iff n.text e.text n.as_tuple_field
  · rw [pat_field_check_unfold, isSome_ite_none]
    exact not_skip_cond_iff n.text p.text n.as_tuple_field
  · intro k
    have hk : ({ text := "0", as_tuple_field := some k } : NameRef).as_tuple_field.isSome = true := rfl
    rw [expr_field_check_unfold, if_pos (Or.inr hk)]
  · intro k
    have hk : ({ text := "0", as_tuple_field := some k } : NameRef).as_tuple_field.isSome = true := rfl
    rw [pat_field_check_unfold, if_pos (Or.inr hk)]

/-- Claim C6: a construct without a field list (a unit-like literal or
pattern) makes the detector return immediately, with the output collection
unchanged and no failure. -/
theorem no_field_list_no_diagnostics (acc : List Diagnostic)
    (file_id : FileId) :
    check_expr_field_shorthand acc file_id ⟨none⟩ = acc
    ∧ check_pat_field_shorthand acc file_id ⟨none⟩ = acc :=
  ⟨rfl, rfl⟩

/-- Claim C7: for a node whose kind is neither the record-expression kind nor
the record-pattern kind, the dispatcher performs no action and the output
collection is left exactly as it was. -/
theorem dispatcher_other_kind_noop (acc : List Diagnostic) (file_id : FileId) :
    check acc file_id SyntaxNode.other = acc := rfl

/-- Claim C3: every emitted fix consists of exactly two text operations in
order — delete the entire field entry's range, then insert the designator's
text at that range's start offset — and the fix's target range equals the
diagnostic's range. -/
theorem fix_is_delete_then_insert (file_id : FileId) :
    (∀ (n : NameRef) (e : Expr) (r : TextRange) (d : Diagnostic)
        (fx : DiagnosticFix),
        expr_field_check file_id ⟨some n, some e, r⟩ = some d →
        d.fix = some fx →
        fx.source_change.edit.indels = [⟨r, ""⟩, ⟨⟨r.start, r.start⟩, n.text⟩]
          ∧ fx.fix_trigger_range = d.range)
    ∧ (∀ (n : NameRef) (p : Pat) (r : TextRange) (d : Diagnostic)
        (fx : DiagnosticFix),
        pat_field_check file_id ⟨some n, some p, r⟩ = some d →
        d.fix = some fx →
        fx.source_change.edit.indels = [⟨r, ""⟩, ⟨⟨r.start, r.start⟩, n.text⟩]
          ∧ fx.fix_trigger_range = d.range) := by
  constructor
  · intro n e r d fx hc hfx
    obtain ⟨-, -, hd⟩ := expr_field_check_eq_some file_id n e r d hc
    subst hd
    obtain rfl : fx = _ := (Option.some.inj hfx).symm
    exact ⟨rfl, rfl⟩
  · intro n p r d fx hc hfx
    obtain ⟨-, -, hd⟩ := pat_field_check_eq_some file_id n p r d hc
    subst hd
    obtain rfl : fx = _ := (Option.some.inj hfx).symm
    exact ⟨rfl, rfl⟩

/-- Witness for claim C3 at the concrete entry `a: a` of `A { a: a, b: b }`. -/
theorem fix_is_delete_then_insert_witness :
    expr_field_check 0 ⟨some ⟨"a", none⟩, some ⟨"a"⟩, ⟨4, 8⟩⟩ = some exDiagA
    ∧ exDiagA.fix = some exFixA
    ∧ (exFixA.source_change.edit.indels = [⟨⟨4, 8⟩, ""⟩, ⟨⟨4, 4⟩, "a"⟩]
        ∧ exFixA.fix_trigger_range = exDiagA.range) :=
  ⟨rfl, rfl,
    (fix_is_delete_then_insert 0).1 ⟨"a", none⟩ ⟨"a"⟩ ⟨4, 8⟩ exDiagA exFixA rfl rfl⟩

/-- Claim C4: every emitted diagnostic has hint severity, spans exactly the
full field entry range, carries the message naming the construct kind
(`Shorthand struct initialization` for record expressions versus `Shorthand
struct pattern` for record patterns), and has a fix attached. -/
theorem diagnostic_shape (file_id : FileId) :
    (∀ (f : RecordExprField) (d : Diagnostic),
        expr_field_check file_id f = some d →
        d.severity = Severity.hint ∧ d.range = f.range
          ∧ d.message = "Shorthand struct initialization" ∧ d.fix.isSome = true)
    ∧ (∀ (f : RecordPatField) (d : Diagnostic),
        pat_field_check file_id f = some d →
        d.severity = Severity.hint ∧ d.range = f.range
          ∧ d.message = "Shorthand struct pattern" ∧ d.fix.isSome = true) := by
  constructor
  · rintro ⟨nr, e, r⟩ d hc
    cases nr with
    | none =>
        rw [expr_field_check_no_name] at hc
        exact Option.noConfusion hc
    | some n =>
        cases e with
        | none =>
            rw [expr_field_check_no_expr] at hc
            exact Option.noConfusion hc
        | some ee =>
            obtain ⟨-, -, hd⟩ := expr_field_check_eq_some file_id n ee r d hc
            subst hd
            exact ⟨rfl, rfl, rfl, rfl⟩
  · rintro ⟨nr, p, r⟩ d hc
    cases nr with
    | none =>
        rw [pat_field_check_no_name] at hc
        exact Option.noConfusion hc
    | some n =>
        cases p with
        | none =>
            rw [pat_field_check_no_pat] at hc
            exact Option.noConfusion hc
        | some pp =>
            obtain ⟨-, -, hd⟩ := pat_field_check_eq_some file_id n pp r d hc
            subst hd
            exact ⟨rfl, rfl, rfl, rfl⟩

/-- Witness for claim C4 at the concrete entry `a: a`. -/
theorem diagnostic_shape_witness :
    expr_field_check 0 exFieldA = some exDiagA
    ∧ (exDiagA.severity = Severity.hint ∧ exDiagA.range = exFieldA.range
        ∧ exDiagA.message = "Shorthand struct initialization"
        ∧ exDiagA.fix.isSome = true) :=
  ⟨rfl, (diagnostic_shape 0).1 exFieldA exDiagA rfl⟩

/-- Claim C5: a field entry whose designator or payload is missing is skipped
silently — removing it from the field list does not change the detector's
output, so every other entry is still processed. -/
theorem missing_half_skipped (acc : List Diagnostic) (file_id : FileId) :
    (∀ (f : RecordExprField) (l1 l2 : List RecordExprField),
        f.name_ref = none ∨ f.expr = none →
        check_expr_field_shorthand acc file_id ⟨some (l1 ++ f :: l2)⟩
          = check_expr_field_shorthand acc file_id ⟨some (l1 ++ l2)⟩)
    ∧ (∀ (f : RecordPatField) (l1 l2 : List RecordPatField),
        f.name_ref = none ∨ f.pat = none →
        check_pat_field_shorthand acc file_id ⟨some (l1 ++ f :: l2)⟩
          = check_pat_field_shorthand acc file_id ⟨some (l1 ++ l2)⟩) := by
  constructor
  · intro f l1 l2 hmiss
    have hnone : expr_field_check file_id f = none := by
      rcases f with ⟨nr, e, r⟩
      rcases hmiss with h | h
      · cases h
        exact expr_field_check_no_name file_id e r
      · cases h
        exact expr_field_check_no_expr file_id nr r
    rw [check_expr_eq_filterMap, check_expr_eq_filterMap,
      List.filterMap_append, List.filterMap_append, List.filterMap_cons, hnone]
  · intro f l1 l2 hmiss
    have hnone : pat_field_check file_id f = none := by
      rcases f with ⟨nr, p, r⟩
      rcases hmiss with h | h
      · cases h
        exact pat_field_check_no_name file_id p r
      · cases h
        exact pat_field_check_no_pat file_id nr r
    rw [check_pat_eq_filterMap, check_pat_eq_filterMap,
      List.filterMap_append, List.filterMap_append, List.filterMap_cons, hnone]

/-- Witness for claim C5: a list holding the well-formed redundant entry
`a: a` and an entry missing its value behaves like the list without the
malformed entry, and still reports the well-formed entry. -/
theorem missing_half_skipped_witness :
    (exBadField.name_ref = none ∨ exBadField.expr = none)
    ∧ check_expr_field_shorthand [] 0 ⟨some ([exFieldA] ++ exBadField :: [])⟩
        = check_expr_field_shorthand [] 0 ⟨some ([exFieldA] ++ [])⟩
    ∧ check_expr_field_shorthand [] 0 ⟨some [exFieldA, exBadField]⟩ = [exDiagA] :=
  ⟨Or.inr rfl,
    (missing_half_skipped [] 0).1 exBadField [exFieldA] [] (Or.inr rfl),
    by decide⟩

/-- Claim C2 (amended): every fix the detector emits is self-consistent —
applying its edit to the unmodified source replaces exactly the field entry's
text with the designator's text, disturbing no other text — and re-running
detection on the edited entry yields no diagnostic; in particular, for a
construct whose only entry was the fixed one (like `A { a: a }` becoming
`A { a }`), re-running detection on the edited construct yields zero
diagnostics. -/
theorem fix_self_consistent_and_idempotent (file_id : FileId) :
    (∀ (n : NameRef) (e : Expr) (pre entry post : List Char) (d : Diagnostic)
        (fx : DiagnosticFix),
        expr_field_check file_id
            ⟨some n, some e, ⟨pre.length, pre.length + entry.length⟩⟩ = some d →
        d.fix = some fx →
        fx.source_change.edit.apply (pre ++ entry ++ post)
            = pre ++ n.text.toList ++ post
          ∧ (∀ acc r, check_expr_field_shorthand acc file_id
              (shorthandRecordExpr n.text r) = acc))
    ∧ (∀ (n : NameRef) (p : Pat) (pre entry post : List Char) (d : Diagnostic)
        (fx : DiagnosticFix),
        pat_field_check file_id
            ⟨some n, some p, ⟨pre.length, pre.length + entry.length⟩⟩ = some d →
        d.fix = some fx →
        fx.source_change.edit.apply (pre ++ entry ++ post)
            = pre ++ n.text.toList ++ post
          ∧ (∀ acc r, check_pat_field_shorthand acc file_id
              (shorthandRecordPat n.text r) = acc)) := by
  constructor
  · intro n e pre entry post d fx hc hfx
    obtain ⟨-, -, hd⟩ := expr_field_check_eq_some file_id n e _ d hc
    subst hd
    obtain rfl : fx = _ := (Option.some.inj hfx).symm
    refine ⟨?_, fun acc r => check_expr_shorthand_eq acc file_id n.text r⟩
    have happ := apply_delete_insert pre.length (pre.length + entry.length)
      n.text (pre ++ entry ++ post) (Nat.le_add_right _ _)
    have htake : (pre ++ entry ++ post).take pre.length = pre := by
      rw [List.append_assoc]
      exact List.take_left pre (entry ++ post)
    have hdrop : (pre ++ entry ++ post).drop (pre.length + entry.length)
        = post := List.drop_left' (by rw [List.length_append])
    rw [htake, hdrop] at happ
    exact happ
  · intro n p pre entry post d fx hc hfx
    obtain ⟨-, -, hd⟩ := pat_field_check_eq_some file_id n p _ d hc
    subst hd
    obtain rfl : fx = _ := (Option.some.inj hfx).symm
    refine ⟨?_, fun acc r => check_pat_shorthand_eq acc file_id n.text r⟩
    have happ := apply_delete_insert pre.length (pre.length + entry.length)
      n.text (pre ++ entry ++ post) (Nat.le_add_right _ _)
    have htake : (pre ++ entry ++ post).take pre.length = pre := by
      rw [List.append_assoc]
      exact List.take_left pre (entry ++ post)
    have hdrop : (pre ++ entry ++ post).drop (pre.length + entry.length)
        = post := List.drop_left' (by rw [List.length_append])
    rw [htake, hdrop] at happ
    exact happ

/-- Counterexample to claim C2 as stated: the fix emitted for the entry
`a: a` of `A { a: a, b: b }` applies correctly, but re-running detection on
the edited result `A { a, b: b }` yields a diagnostic for the still-redundant
entry `b: b`, not zero diagnostics for that construct. -/
theorem fix_construct_idempotence_counterexample :
    expr_field_check 0 exFieldA = some exDiagA
    ∧ exDiagA.fix = some exFixA
    ∧ TextEdit.apply exFixA.source_change.edit exSrcAB = exEditedAB
    ∧ check_expr_field_shorthand [] 0 exEditedConstructAB ≠ [] :=
  ⟨rfl, rfl, by decide, by decide⟩

/-- Witness for claim C2 (amended) at `A { a: a }`: the source splits as
`A { ` ++ `a: a` ++ ` }` and the fix rewrites it to `A { a }`. -/
theorem fix_self_consistent_witness :
    expr_field_check 0 ⟨some ⟨"a", none⟩, some ⟨"a"⟩,
        ⟨("A \x7b ".toList : List Char).length,
          ("A \x7b ".toList : List Char).length + ("a: a".toList : List Char).length⟩⟩
      = some exDiagA
    ∧ exDiagA.fix = some exFixA
    ∧ (TextEdit.apply exFixA.source_change.edit
          ("A \x7b ".toList ++ "a: a".toList ++ " \x7d".toList)
        = "A \x7b ".toList ++ ("a" : String).toList ++ " \x7d".toList
      ∧ (∀ acc r, check_expr_field_shorthand acc 0 (shorthandRecordExpr "a" r) = acc)) :=
  ⟨rfl, rfl,
    (fix_self_consistent_and_idempotent 0).1 ⟨"a", none⟩ ⟨"a"⟩
      "A \x7b ".toList "a: a".toList " \x7d".toList exDiagA exFixA rfl rfl⟩

/-- Claim C8: diagnostics are appended in source order — if an earlier entry
and a later entry of the field list are both flagged, the earlier entry's
diagnostic occurs at an earlier position of the output collection. -/
theorem diagnostics_in_source_order (acc : List Diagnostic) (file_id : FileId) :
    (∀ (fields : List RecordExprField) (i j : Nat) (hi : i < fields.length)
        (hj : j < fields.length) (d1 d2 : Diagnostic), i < j →
        expr_field_check file_id (fields.get ⟨i, hi⟩) = some d1 →
        expr_field_check file_id (fields.get ⟨j, hj⟩) = some d2 →
        ∃ p q, p < q
          ∧ (check_expr_field_shorthand acc file_id ⟨some fields⟩).get? p = some d1
          ∧ (check_expr_field_shorthand acc file_id ⟨some fields⟩).get? q = some d2)
    ∧ (∀ (fields : List RecordPatField) (i j : Nat) (hi : i < fields.length)
        (hj : j < fields.length) (d1 d2 : Diagnostic), i < j →
        pat_field_check file_id (fields.get ⟨i, hi⟩) = some d1 →
        pat_field_check file_id (fields.get ⟨j, hj⟩) = some d2 →
        ∃ p q, p < q
          ∧ (check_pat_field_shorthand acc file_id ⟨some fields⟩).get? p = some d1
          ∧ (check_pat_field_shorthand acc file_id ⟨some fields⟩).get? q = some d2) := by
  constructor
  · intro fields i j hi hj d1 d2 hij h1 h2
    obtain ⟨p, q, hpq, hp, hq⟩ := filterMap_get_order (expr_field_check file_id)
      fields i j hi hj hij d1 d2 h1 h2
    refine ⟨acc.length + p, acc.length + q, by omega, ?_, ?_⟩
    · rw [check_expr_eq_filterMap,
        List.get?_append_right (Nat.le_add_right _ _)]
      simpa using hp
    · rw [check_expr_eq_filterMap,
        List.get?_append_right (Nat.le_add_right _ _)]
      simpa using hq
  · intro fields i j hi hj d1 d2 hij h1 h2
    obtain ⟨p, q, hpq, hp, hq⟩ := filterMap_get_order (pat_field_check file_id)
      fields i j hi hj hij d1 d2 h1 h2
    refine ⟨acc.length + p, acc.length + q, by omega, ?_, ?_⟩
    · rw [check_pat_eq_filterMap,
        List.get?_append_right (Nat.le_add_right _ _)]
      simpa using hp
    · rw [check_pat_eq_filterMap,
        List.get?_append_right (Nat.le_add_right _ _)]
      simpa using hq

/-- Witness for claim C8 on `A { a: a, b: b }`: both entries are flagged and
the diagnostic for `a: a` precedes the diagnostic for `b: b`. -/
theorem diagnostics_in_source_order_witness :
    (0 : Nat) < 1
    ∧ expr_field_check 0 ([exFieldA, exFieldB].get ⟨0, by decide⟩) = some exDiagA
    ∧ expr_field_check 0 ([exFieldA, exFieldB].get ⟨1, by decide⟩) = some exDiagB
    ∧ (∃ p q, p < q
        ∧ (check_expr_field_shorthand [] 0 ⟨some [exFieldA, exFieldB]⟩).get? p
            = some exDiagA
        ∧ (check_expr_field_shorthand [] 0 ⟨some [exFieldA, exFieldB]⟩).get? q
            = some exDiagB) :=
  ⟨by decide, rfl, rfl,
    (diagnostics_in_source_order [] 0).1 [exFieldA, exFieldB] 0 1
      (by decide) (by decide) exDiagA exDiagB (by decide) rfl rfl⟩

/-- Claim C9: the two detectors share identical logic modulo node shapes —
on constructs whose field entries carry the same designator texts, payload
texts, positional status and ranges, they produce the same diagnostics and
fixes except for the message and fix-label strings. -/
theorem detectors_agree_modulo_labels (acc : List Diagnostic)
    (file_id : FileId) (rp : RecordPat) :
    (check_pat_field_shorthand acc file_id rp).map Diagnostic.eraseText
      = (check_expr_field_shorthand acc file_id rp.toRecordExpr).map
          Diagnostic.eraseText := by
  rcases rp with ⟨fl⟩
  cases fl with
  | none => rfl
  | some fields =>
      have h1 : RecordPat.toRecordExpr ⟨some fields⟩
          = ⟨some (fields.map RecordPatField.toExprField)⟩ := rfl
      rw [h1, check_pat_eq_filterMap, check_expr_eq_filterMap,
        List.map_append, List.map_append]
      congr 1
      rw [List.map_filterMap, List.map_filterMap, List.filterMap_map]
      exact List.filterMap_congr (fun f _ => field_check_agree file_id f)

/-- Claim C10: one dispatcher call appends at most one diagnostic per field
entry — the output length never exceeds the input length plus the number of
entries in the node's field list (which is zero for a node without a field
list or of an unrecognized kind). -/
theorem at_most_one_diagnostic_per_field (acc : List Diagnostic)
    (file_id : FileId) (node : SyntaxNode) :
    (check acc file_id node).length ≤ acc.length + node.numFields := by
  cases node with
  | other => exact Nat.le_add_right _ _
  | recordExpr it =>
      rcases it with ⟨fl⟩
      cases fl with
      | none => exact Nat.le_add_right _ _
      | some fields =>
          have h : check acc file_id (SyntaxNode.recordExpr ⟨some fields⟩)
              = acc ++ fields.filterMap (expr_field_check file_id) :=
            check_expr_eq_filterMap acc file_id fields
          rw [h, List.length_append]
          have h2 : (SyntaxNode.recordExpr ⟨some fields⟩).numFields
              = fields.length := rfl
          rw [h2]
          exact Nat.add_le_add_left (List.length_filterMap_le _ _) _
  | recordPat it =>
      rcases it with ⟨fl⟩
      cases fl with
      | none => exact Nat.le_add_right _ _
      | some fields =>
          have h : check acc file_id (SyntaxNode.recordPat ⟨some fields⟩)
              = acc ++ fields.filterMap (pat_field_check file_id) :=
            check_pat_eq_filterMap acc file_id fields
          rw [h, List.length_append]
          have h2 : (SyntaxNode.recordPat ⟨some fields⟩).numFields
              = fields.length := rfl
          rw [h2]
          exact Nat.add_le_add_left (List.length_filterMap_le _ _) _
